import Mathlib

/-!
Verification development for the `outlier_orchestrator` repository.

The Lean definitions below are a shallow embedding of the JavaScript source:

* `src/services/orchestrator.service.js` (the second, session-based
  `OrchestratorService` in `src/src/routes/index.js`, lines 427-1010):
  `applyVoting`, `orchestrate`, `parseSensorFiles`, `startTrainingSession`,
  `sendTrainingBatch`, `postWithRetry`, `sendDischargeWithRetry`,
  `releaseDischarge`, `prepareTrainingStream`.
* `src/controllers/orchestrator.controller.js` (`src/unnamed/part_004`):
  `predict`, `train`, `uploadAutomatedPredict`, `finalizeAutomatedPredicts`.

JavaScript numbers standing for confidences, signal values and times are
modelled as `ℚ`; the JS falsy/truthy distinctions the code relies on
(`x || 1.0`, `undefined >= n`, absent object fields) are modelled explicitly.
-/

/-- A JavaScript value in a numeric position (the `confidence` field of a
node response).  `undefined` is an absent field, `nullv` is JSON `null`,
`nan` is `NaN`; all three, together with `num 0`, are falsy. -/
inductive JsNum where
  | undefined
  | nullv
  | nan
  | num (q : ℚ)
deriving DecidableEq

/-- JS `confidence || 1.0` (source line 792): every falsy value — `undefined`,
`null`, `NaN` and `0` — is replaced by `1.0`. -/
def jsOrOne : JsNum → ℚ
  | .num q => if q = 0 then 1 else q
  | _ => 1

/-- JS `undefinedOrNumber >= n`: comparing `undefined` with a number yields
`false` (the comparison goes through `NaN`). -/
def jsGEOpt : Option Int → Int → Bool
  | none, _ => false
  | some v, t => decide (v ≥ t)

/-- JS truthiness of an optional boolean object field: an absent field
(`undefined`) is falsy. -/
def jsTruthy : Option Bool → Bool
  | none => false
  | some b => b

/-! ## Voting engine (`applyVoting`, service lines 760-836) -/

/-- The `result` payload of a node predict response, as read by `applyVoting`:
`prediction` (already normalised to a number by `callModel`) and
`confidence`. -/
structure PredResult where
  prediction : Option ℕ
  confidence : JsNum
deriving DecidableEq

/-- One element of the `modelResponses` array fed to `applyVoting`. -/
structure ModelResponse where
  status : String
  result : Option PredResult
deriving DecidableEq

/-- Filter of source lines 764-766:
`resp.status === 'success' && resp.result && resp.result.prediction !== undefined`. -/
def hasValidPrediction (r : ModelResponse) : Bool :=
  r.status == "success" &&
    (match r.result with
     | some res => res.prediction.isSome
     | none => false)

/-- `successfulResponses` of source line 764. -/
def successfulResponses (l : List ModelResponse) : List ModelResponse :=
  l.filter hasValidPrediction

/-- The prediction of a response (`response.result.prediction`). -/
def predictionOf (r : ModelResponse) : Option ℕ :=
  r.result.bind (·.prediction)

/-- The confidence of a response (`response.result.confidence`); an absent
`result` reads as `undefined`. -/
def confidenceOf (r : ModelResponse) : JsNum :=
  (r.result.map (·.confidence)).getD .undefined

/-- Final value of `votes[c]` after the forEach of lines 790-796: the number
of successful responses voting for class `c`. -/
def votesFor (l : List ModelResponse) (c : ℕ) : ℕ :=
  (successfulResponses l).countP (fun r => decide (predictionOf r = some c))

/-- Final value of `confidences[c]` after the forEach of lines 790-796: the
in-order list of `confidence || 1.0` for the responses voting class `c`. -/
def confidencesFor (l : List ModelResponse) (c : ℕ) : List ℚ :=
  (successfulResponses l).filterMap
    (fun r => if predictionOf r = some c then some (jsOrOne (confidenceOf r)) else none)

/-- The object returned by `applyVoting`.  The early `return` of lines
770-774 builds an object without `votes`/`totalVotes`/`totalModels`, hence
those fields are `Option`s. -/
structure VoteOutcome where
  votes : Option (ℕ × ℕ)
  totalVotes : Option ℕ
  totalModels : Option ℕ
  decision : Option ℕ
  confidence : ℚ
  message : String
deriving DecidableEq

/-- `applyVoting` (service lines 760-836).  The imperative vote/confidence
accumulation is rendered with `votesFor`/`confidencesFor`; winner choice and
result construction follow lines 798-832.  Only classes 0 and 1 exist, as in
the source literal `votes = {0: 0, 1: 0}`. -/
def applyVoting (modelResponses : List ModelResponse) : VoteOutcome :=
  let successful := successfulResponses modelResponses
  if successful.isEmpty then
    { votes := none, totalVotes := none, totalModels := none,
      decision := none, confidence := 0,
      message := "No models returned valid predictions" }
  else
    let v0 := votesFor modelResponses 0
    let v1 := votesFor modelResponses 1
    let winner : Option ℕ := if v1 < v0 then some 0 else if v0 < v1 then some 1 else none
    match winner with
    | none =>
      { votes := some (v0, v1), totalVotes := some successful.length,
        totalModels := some modelResponses.length,
        decision := none, confidence := 0,
        message := "Tie in voting, unable to make prediction" }
    | some c =>
      let confs := confidencesFor modelResponses c
      let avg : ℚ := if 0 < confs.length then confs.sum / (confs.length : ℚ) else 0
      { votes := some (v0, v1), totalVotes := some successful.length,
        totalModels := some modelResponses.length,
        decision := some c, confidence := avg,
        message := "Class " ++ toString c ++ " won by " ++
          toString (if c = 0 then v0 else v1) ++ " votes" }

/-- A successful class-1 response with the given confidence. -/
def mkSuccess1 (c : JsNum) : ModelResponse :=
  { status := "success", result := some { prediction := some 1, confidence := c } }

/-! ## Discharges, sensor files and the parser (`parseSensorFiles`, service lines 930-965) -/

/-- A signal inside a discharge.  `values := none` models the `null` written
by `releaseDischarge`. -/
structure Signal where
  fileName : String
  values : Option (List ℚ)
deriving DecidableEq

/-- A materialised discharge as produced by `prepareTrainingStream`.
`signals := none` / `times := none` model the references dropped by
`releaseDischarge`. -/
structure Discharge where
  id : String
  signals : Option (List Signal)
  times : Option (List ℚ)
  length : ℕ
  anomalyTime : Option ℚ
deriving DecidableEq

/-- One uploaded sensor text file.  `SensorData.fromTextFile` is not under
`src/`; per the spec (§4.1) it parses `<time> <value>` lines into a times
vector and a values vector, throwing on malformed lines.  `parsed := none`
models a file on which `fromTextFile` throws; `parsed := some (times, values)`
is its output. -/
structure SensorFile where
  name : String
  parsed : Option (List ℚ × List ℚ)
deriving DecidableEq

/-- The object returned by `parseSensorFiles`: `{ signals, times, length }`,
plus the `logger.warn` messages it emitted (lines 944 and 948). -/
structure ParseResult where
  signals : List Signal
  times : Option (List ℚ)
  length : ℕ
  warnings : List String
deriving DecidableEq

/-- Warnings produced for a non-first file (lines 943-951): a differing
`times` length warns and skips the index loop; with equal lengths the first
divergent index warns (then `break`). -/
def timesWarnings (first : List ℚ) (name : String) (ts : List ℚ) : List String :=
  if ts.length ≠ first.length then ["Signal " ++ name ++ " length differs from first signal"]
  else
    match (List.range first.length).find? (fun i => decide (ts.getD i 0 ≠ first.getD i 0)) with
    | some i => ["Signal " ++ name ++ " time mismatch at index " ++ toString i]
    | none => []

/-- Recursion of the `files.forEach` loop of `parseSensorFiles`:
`idx` is the running index, `times` the first file's times once seen. -/
def parseSensorFilesAux : ℕ → Option (List ℚ) → List Signal → List String →
    List SensorFile → Except String ParseResult
  | _, times, sigs, warns, [] =>
      .ok { signals := sigs, times := times, length := (times.getD []).length,
            warnings := warns }
  | idx, times, sigs, warns, f :: fs =>
      match f.parsed with
      | none => .error ("Error parsing sensor file " ++ f.name)
      | some (ts, vs) =>
          if idx = 0 then
            parseSensorFilesAux (idx + 1) (some ts)
              (sigs ++ [{ fileName := f.name, values := some vs }]) warns fs
          else
            parseSensorFilesAux (idx + 1) times
              (sigs ++ [{ fileName := f.name, values := some vs }])
              (warns ++ timesWarnings (times.getD []) f.name ts) fs

/-- `parseSensorFiles` (service lines 930-965): parses every file, records a
warning for each later file whose times differ from the first file's, and
returns `{ signals, times, length }`; it only throws when a file itself fails
to parse. -/
def parseSensorFiles (files : List SensorFile) : Except String ParseResult :=
  parseSensorFilesAux 0 none [] [] files

/-! ## `prepareTrainingStream` (service lines 974-1007) -/

/-- JS `s || dflt` on strings: the empty string is falsy, a missing field is
falsy. -/
def jsOrString : Option String → String → String
  | some s, d => if s = "" then d else s
  | none, d => d

/-- A raw discharge as submitted to `/train` or built by `trainRaw`. -/
structure RawDischarge where
  id : Option String
  files : Option (List SensorFile)
  signals : Option (List Signal)
  times : Option (List ℚ)
  length : Option ℕ
  anomalyTime : Option ℚ
deriving DecidableEq

/-- Body of one iteration of `prepareTrainingStream` (lines 975-1005):
materialise the discharge at position `idx` (0-based), via the parser when
`files` is present, pass-through when `signals`/`times` are present, throwing
otherwise.  `length` falls back to `times.length` when absent or `0`
(JS `d.length || d.times.length`). -/
def prepareOne (idx : ℕ) (d : RawDischarge) : Except String Discharge :=
  match d.files with
  | some fs =>
      if fs.isEmpty then
        .error ("Discharge " ++ jsOrString d.id (toString idx) ++ " has no files")
      else
        match parseSensorFiles fs with
        | .error e => .error e
        | .ok r =>
            .ok { id := jsOrString d.id ("discharge_" ++ toString (idx + 1)),
                  signals := some r.signals, times := r.times, length := r.length,
                  anomalyTime := d.anomalyTime }
  | none =>
      match d.signals, d.times with
      | some sg, some ts =>
          .ok { id := jsOrString d.id ("discharge_" ++ toString (idx + 1)),
                signals := some sg, times := some ts,
                length := (match d.length with
                           | some n => if n ≠ 0 then n else ts.length
                           | none => ts.length),
                anomalyTime := d.anomalyTime }
      | _, _ => .error ("Discharge " ++ jsOrString d.id (toString idx) ++ " has no files or signals")

/-- Eager rendering of the async generator `prepareTrainingStream`: the list
of discharges it yields, or the error it throws at the first bad element. -/
def prepareTrainingStreamAux : ℕ → List RawDischarge → Except String (List Discharge)
  | _, [] => .ok []
  | idx, d :: ds =>
      match prepareOne idx d with
      | .error e => .error e
      | .ok out => (prepareTrainingStreamAux (idx + 1) ds).map (out :: ·)

/-- `prepareTrainingStream` (service lines 974-1007). -/
def prepareTrainingStream (raws : List RawDischarge) : Except String (List Discharge) :=
  prepareTrainingStreamAux 0 raws

/-! ## Training session state (`startTrainingSession`, `sendTrainingBatch`,
service lines 564-659) -/

/-- A task appended to a node's serial queue by `sendTrainingBatch` line 631:
it will POST ordinal `seq` with the structured clone `payload` to
`trainingUrl/<seq>`. -/
structure NodeTask where
  seq : ℕ
  payload : Discharge
deriving DecidableEq

/-- The `this.trainingSession` object (created at service lines 601-605).
The created object has fields `totalDischarges`, `sent` and `models` only:
`enqueued` is never assigned anywhere in the repository (always `undefined`,
hence `none`), and `autoFinish` is only ever assigned later by the `train`
controller (absent at creation). -/
structure TrainingSession where
  totalDischarges : Int
  sent : ℕ
  enqueued : Option Int
  autoFinish : Option Bool
  models : List (String × List NodeTask)
deriving DecidableEq

/-- `startTrainingSession(totalDischarges)` (service lines 564-612), with the
per-model start POSTs already resolved: `accepted` is the list of enabled
models whose session-start POST succeeded (each gets an empty serial queue).
The JS function declares a single parameter, so the extra `autoFinish`
argument passed by the controllers is dropped. -/
def startTrainingSession (totalDischarges : Int) (accepted : List String) : TrainingSession :=
  { totalDischarges := totalDischarges, sent := 0, enqueued := none, autoFinish := none,
    models := accepted.map (fun m => (m, [])) }

/-- One iteration of the `for await` loop of `sendTrainingBatch`
(lines 625-639): read `seq = sent + 1`, append a task carrying the clone to
every model's queue, release the original, increment `sent`.  The iteration
body contains no `await`, so it is atomic even when several
`sendTrainingBatch` calls interleave. -/
def processDischarge (s : TrainingSession) (d : Discharge) : TrainingSession :=
  let seq := s.sent + 1
  { s with
      models := s.models.map (fun p => (p.1, p.2 ++ [{ seq := seq, payload := d }])),
      sent := s.sent + 1 }

/-- `releaseDischarge` (service lines 649-659): each signal's `values` is
nulled, then the `signals` and `times` references are dropped. -/
def releaseDischarge (d : Discharge) : Discharge :=
  { d with signals := none, times := none }

/-- The queue of a node inside the session (`trainingSession.models[m].queue`). -/
def queueOf (s : TrainingSession) (m : String) : List NodeTask :=
  (s.models.lookup m).getD []

/-- `sendTrainingBatch` over already-materialised discharges: the fold of the
atomic per-discharge step. -/
def sendTrainingBatchProcessed (s : TrainingSession) (ds : List Discharge) : TrainingSession :=
  ds.foldl processDischarge s

/-- `sendTrainingBatch(rawDischarges)` (service lines 618-640) on an active
session: discharges are materialised lazily, so when the generator throws the
earlier discharges of the batch are already enqueued and the error propagates
with the session mutated so far (second component). -/
def sendTrainingBatchAux : ℕ → TrainingSession → List RawDischarge →
    TrainingSession × Option String
  | _, s, [] => (s, none)
  | idx, s, d :: ds =>
      match prepareOne idx d with
      | .error e => (s, some e)
      | .ok out => sendTrainingBatchAux (idx + 1) (processDischarge s out) ds

/-- `sendTrainingBatch` from the start of a batch. -/
def sendTrainingBatch (s : TrainingSession) (raws : List RawDischarge) :
    TrainingSession × Option String :=
  sendTrainingBatchAux 0 s raws

/-! ## Retry policy (`postWithRetry`, `sendDischargeWithRetry`,
service lines 661-682) -/

/-- The transport-error classifier of `postWithRetry` line 666:
`error.message && error.message.includes('Network Error')`. -/
def isNetworkError (msg : String) : Bool :=
  (List.range (msg.length + 1)).any
    (fun i => "Network Error".toList.isPrefixOf (msg.toList.drop i))

/-- Outcome of the `while (true)` retry loop, run against a finite oracle of
attempt outcomes.  `retries` counts the 500 ms `delay` calls taken.
`retrying n` means every supplied attempt failed as a transport error and the
loop is still going (it never gives up by itself). -/
inductive RetryResult where
  | success (retries : ℕ)
  | thrown (msg : String) (retries : ℕ)
  | retrying (retries : ℕ)
deriving DecidableEq

/-- The delay between transport retries, milliseconds (service line 667). -/
def retryDelayMs : ℕ := 500

/-- `postWithRetry(options)` (service lines 661-673) against an oracle of
attempt outcomes: `none` is a successful POST, `some msg` an `axios` error
with message `msg`.  A transport-classified error waits 500 ms and retries;
any other error is rethrown immediately. -/
def postWithRetry : List (Option String) → RetryResult
  | [] => .retrying 0
  | none :: _ => .success 0
  | some msg :: rest =>
      if isNetworkError msg then
        match postWithRetry rest with
        | .success d => .success (d + 1)
        | .thrown m d => .thrown m (d + 1)
        | .retrying d => .retrying (d + 1)
      else .thrown msg 0

/-- `sendDischargeWithRetry(url, seq, discharge)` (service lines 675-682):
the POST target URL and the retry behaviour delegated to `postWithRetry`. -/
def sendDischargeWithRetry (url : String) (seq : ℕ) (attempts : List (Option String)) :
    String × RetryResult :=
  (url ++ "/" ++ toString seq, postWithRetry attempts)

/-- The wire trace of one queue task: `failures` transport-failed attempts of
POST `/train/<seq>` followed by the one successful attempt (tasks on a serial
queue run to completion, retries included, before the next starts). -/
def runTask (t : NodeTask) (failures : ℕ) : List (ℕ × Bool) :=
  List.replicate failures (t.seq, false) ++ [(t.seq, true)]

/-- The POSTs a node receives while its serial queue is drained: per task,
`fails` supplies the number of transport failures injected before the task's
success (missing entries mean no failure). -/
def nodeObservations : List NodeTask → List ℕ → List (ℕ × Bool)
  | [], _ => []
  | t :: ts, [] => runTask t 0 ++ nodeObservations ts []
  | t :: ts, f :: fs => runTask t f ++ nodeObservations ts fs

/-- The ordinals of the successful POSTs a node observes. -/
def observedOrdinals (q : List NodeTask) (fails : List ℕ) : List ℕ :=
  (nodeObservations q fails).filterMap (fun e => if e.2 then some e.1 else none)

/-! ## Per-discharge event trace of `sendTrainingBatch` (lines 625-639),
for the memory-release behaviour -/

/-- Observable events while one discharge flows through `sendTrainingBatch`
and the per-node queues. -/
inductive TaskEvent where
  | enqueueTask (node : String) (seq : ℕ)
  | releaseOriginal (dischargeId : String)
  | taskComplete (node : String) (seq : ℕ)
  | releaseClone (node : String) (seq : ℕ)
deriving DecidableEq

/-- The event trace of one discharge: the synchronous loop body appends a
task (with its own `structuredClone`) to every node's queue and then calls
`releaseDischarge` on the original (line 637); the queue continuations run
only after this synchronous block, each node's task completing and its
`.finally` releasing that node's clone.  `sched` is the order in which the
independent per-node tasks happen to complete. -/
def dischargeEvents (nodes : List String) (d : Discharge) (seq : ℕ)
    (sched : List String) : List TaskEvent :=
  nodes.map (fun n => .enqueueTask n seq) ++ [.releaseOriginal d.id] ++
    sched.flatMap (fun n => [.taskComplete n seq, .releaseClone n seq])

/-! ## The `train` controller (controller lines 317-379) -/

/-- The `/train` request body as consumed by the session-management block of
the controller: the list of raw discharges and the optional numeric
`totalDischarges` (`typeof x === 'number'`). -/
structure TrainBody where
  discharges : List RawDischarge
  totalDischarges : Option Int
deriving DecidableEq

/-- The session-management core of `OrchestratorController.train` (controller
lines 329-359): validate non-emptiness, start or update the session
(lines 339-352), send the batch, then run the auto-finish check of
lines 355-359, which reads the never-assigned `trainingSession.enqueued`
(JS `undefined >= n`, i.e. `jsGEOpt none`).  Returns the new
`trainingSession` and whether the response was 200 (`true`) or 400. -/
def train (svc : Option TrainingSession) (accepted : List String) (body : TrainBody) :
    Option TrainingSession × Bool :=
  if body.discharges.isEmpty then (svc, false)
  else
    let afterStart : TrainingSession :=
      match svc with
      | none =>
          startTrainingSession (body.totalDischarges.getD (body.discharges.length : Int)) accepted
      | some s =>
          if !jsTruthy s.autoFinish && body.totalDischarges.isSome then
            { s with autoFinish := some true, totalDischarges := body.totalDischarges.getD 0 }
          else if jsTruthy s.autoFinish then
            match body.totalDischarges with
            | some t =>
                if t ≠ 0 ∧ t > s.totalDischarges then { s with totalDischarges := t } else s
            | none => s
          else
            { s with totalDischarges := s.totalDischarges + (body.discharges.length : Int) }
    match sendTrainingBatch afterStart body.discharges with
    | (s2, some _) => (some s2, false)
    | (s2, none) =>
        if jsTruthy s2.autoFinish && jsGEOpt s2.enqueued s2.totalDischarges then (none, true)
        else (some s2, true)

/-! ## `orchestrate` (service lines 689-727) and the `predict` controller
(controller lines 25-62) -/

/-- The `/predict` body as read by `orchestrate`: `discharges := none` models
a missing or non-array field (`!data.discharges || !Array.isArray(...)`); an
empty JS array is truthy, hence `some []`. -/
structure PredictData where
  discharges : Option (List Discharge)
deriving DecidableEq

/-- The object returned by `orchestrate`: which nodes were POSTed (and with
what payload — `discharges[0]`, `none` when the array is empty), their
responses, and the voting result. -/
structure OrchResult where
  dispatched : List (String × Option Discharge)
  models : List ModelResponse
  voting : VoteOutcome
deriving DecidableEq

/-- The enabled-model snapshot of lines 700-701. -/
def enabledModels (models : List (String × Bool)) : List String :=
  (models.filter (·.2)).map (·.1)

/-- `orchestrate(data)` (service lines 689-727): reject a missing/non-array
`discharges`, reject an empty registry, otherwise POST `discharges[0]` to
every enabled node in parallel (`respond` is the oracle for `callModel`) and
vote on the responses. -/
def orchestrate (models : List (String × Bool))
    (respond : String → Option Discharge → ModelResponse)
    (data : PredictData) : Except String OrchResult :=
  match data.discharges with
  | none => .error "Formato de datos inválido: se espera un objeto con array discharges"
  | some ds =>
      let enabled := enabledModels models
      if enabled.isEmpty then .error "No models are enabled for prediction"
      else
        let discharge := ds.head?
        let responses := enabled.map (fun m => respond m discharge)
        .ok { dispatched := enabled.map (fun m => (m, discharge)),
              models := responses, voting := applyVoting responses }

/-- HTTP outcomes of the `predict` controller. -/
inductive HttpStatus where
  | ok
  | badRequest
  | conflict
  | internalError
deriving DecidableEq

/-- `OrchestratorController.predict` (controller lines 25-62): 400 only when
the body or its `discharges` field is missing; an `orchestrate` throw is
caught as 500; a `null` decision is 409; otherwise 200. -/
def predict (models : List (String × Bool))
    (respond : String → Option Discharge → ModelResponse)
    (body : Option PredictData) : HttpStatus :=
  match body with
  | none => .badRequest
  | some data =>
      match data.discharges with
      | none => .badRequest
      | some _ =>
          match orchestrate models respond data with
          | .error _ => .internalError
          | .ok r => if r.voting.decision = none then .conflict else .ok

/-! ## Automated-predict sessions (`uploadAutomatedPredict` controller lines
82-163, `finalizeAutomatedPredicts` controller lines 170-233) -/

/-- `session.stats[model].discharges[dischargeId]`: the three parallel arrays
appended in lockstep by the upload handler. -/
structure DStat where
  justifications : List ℚ
  thresholds : List ℕ
  count_thresholds : List ℕ
deriving DecidableEq

/-- The `{ justifications: [], thresholds: [], count_thresholds: [] }`
initialiser of controller line 135. -/
def emptyDStat : DStat :=
  { justifications := [], thresholds := [], count_thresholds := [] }

/-- `session.stats[model]` (controller line 132): JS objects are modelled as
association lists in insertion order (`dischargeIds` mirrors the push order
of line 136). -/
structure MStat where
  count : ℕ
  dischargeIds : List String
  discharges : List (String × DStat)
deriving DecidableEq

/-- An automated-predict session (`{ dir, stats, dischargeOrder }` of
controller line 73; the scratch directory is not modelled). -/
structure APSession where
  dischargeOrder : List String
  stats : List (String × MStat)
deriving DecidableEq

/-- The empty session created by `startAutomatedPredictsSession`. -/
def emptyAPSession : APSession :=
  { dischargeOrder := [], stats := [] }

/-- JS object-field read (JS objects are modelled as association lists in
insertion order, with unique keys). -/
def lookupAssoc {α : Type} : List (String × α) → String → Option α
  | [], _ => none
  | p :: rest, k => if p.1 = k then some p.2 else lookupAssoc rest k

/-- JS object-field read with default (`obj[k] || dflt` on object values). -/
def getAssoc {α : Type} (l : List (String × α)) (k : String) (dflt : α) : α :=
  (lookupAssoc l k).getD dflt

/-- JS object-field write: overwrite in place when the key exists, append
otherwise. -/
def setAssoc {α : Type} : List (String × α) → String → α → List (String × α)
  | [], k, v => [(k, v)]
  | p :: rest, k, v => if p.1 = k then (k, v) :: rest else p :: setAssoc rest k v

/-- JS `history.slice(-ct)`; `slice(-0)` is `slice(0)`, the whole array. -/
def jsSliceLast (ct : ℕ) (l : List ℕ) : List ℕ :=
  if ct = 0 then l else l.drop (l.length - ct)

/-- Body of the `justArray.forEach` of controller lines 140-148: append the
justification, its threshold pass, and the streak-of-`ct` bit computed over
the updated `thresholds` history. -/
def pushJust (jt : ℚ) (ct : ℕ) (d : DStat) (j : ℚ) : DStat :=
  let pass : ℕ := if jt < j then 1 else 0
  let thrs := d.thresholds ++ [pass]
  let countPass : ℕ :=
    if ct ≤ thrs.length ∧ (jsSliceLast ct thrs).all (fun v => v == 1) then 1 else 0
  { justifications := d.justifications ++ [j], thresholds := thrs,
    count_thresholds := d.count_thresholds ++ [countPass] }

/-- One model response as consumed by the stats accumulation: its name and
its `result.windows` (`none` when the response has no `windows` field;
entries are the `justification` of each window, `none` when undefined). -/
structure WindowResp where
  modelName : String
  windows : Option (List (Option ℚ))
deriving DecidableEq

/-- `justArray` of controller lines 124-129: the defined window
justifications, in order; no `windows` field yields the empty list. -/
def justArrayOf (w : Option (List (Option ℚ))) : List ℚ :=
  (w.getD []).filterMap id

/-- The per-model body of the `result.models.forEach` of controller lines
117-149: create the model entry and the per-discharge entry on first sight
(pushing to `dischargeIds`), then fold the justifications. -/
def uploadModelStats (st : List (String × MStat)) (dischargeId : String)
    (name : String) (jt : ℚ) (ct : ℕ) (js : List ℚ) : List (String × MStat) :=
  let m0 := getAssoc st name { count := ct, dischargeIds := [], discharges := [] }
  let m1 :=
    if (lookupAssoc m0.discharges dischargeId).isSome then m0
    else { m0 with discharges := m0.discharges ++ [(dischargeId, emptyDStat)],
                   dischargeIds := m0.dischargeIds ++ [dischargeId] }
  let d1 := js.foldl (pushJust jt ct) (getAssoc m1.discharges dischargeId emptyDStat)
  setAssoc st name { m1 with discharges := setAssoc m1.discharges dischargeId d1 }

/-- The session mutation performed by one `uploadAutomatedPredict` call
(controller lines 117-153): run the stats accumulation for every model
response, then record the discharge in `dischargeOrder` on first sight.
`cfg` gives, per model name, the already-defaulted thresholds
(`parseFloat(cfg.justification) || 0`, `parseInt(cfg.count) || 1`). -/
def uploadAutomatedPredict (s : APSession) (dischargeId : String)
    (cfg : String → ℚ × ℕ) (resps : List WindowResp) : APSession :=
  let stats := resps.foldl
    (fun st r =>
      uploadModelStats st dischargeId r.modelName (cfg r.modelName).1 (cfg r.modelName).2
        (justArrayOf r.windows))
    s.stats
  { dischargeOrder :=
      if dischargeId ∈ s.dischargeOrder then s.dischargeOrder
      else s.dischargeOrder ++ [dischargeId],
    stats := stats }

/-- A CSV cell of the per-model stats file: a justification, a 0/1 threshold
bit, or blank padding. -/
inductive CsvCell where
  | blank
  | ratVal (q : ℚ)
  | natVal (n : ℕ)
deriving DecidableEq

/-- `id.replace(/[^a-zA-Z0-9_-]/g, '_')`. -/
def safeId (s : String) : String :=
  String.mk (s.data.map (fun c => if c.isAlphanum || c == '_' || c == '-' then c else '_'))

/-- The three header columns pushed per discharge id
(controller lines 192-197). -/
def headerTriplet (id : String) : List String :=
  [safeId id ++ "_justification", safeId id ++ "_justification_threshold",
   safeId id ++ "_count_threshold"]

/-- The CSV header row built by `finalizeAutomatedPredicts` lines 190-198:
one triplet per id in `data.dischargeIds` — the model's own first-sight list,
not the session-wide `dischargeOrder`. -/
def csvHeader (m : MStat) : List String :=
  m.dischargeIds.flatMap headerTriplet

/-- `maxRows` of controller lines 200-203: `Math.max(0, ...lengths)`. -/
def maxRowsOf (m : MStat) : ℕ :=
  (m.dischargeIds.map
    (fun id => (getAssoc m.discharges id emptyDStat).justifications.length)).foldl max 0

/-- Row cell for an optional justification (`''` when out of range). -/
def cellOfQ : Option ℚ → CsvCell
  | some q => .ratVal q
  | none => .blank

/-- Row cell for an optional threshold bit (`''` when out of range). -/
def cellOfN : Option ℕ → CsvCell
  | some n => .natVal n
  | none => .blank

/-- The CSV data rows of controller lines 204-216: `maxRows` rows, each with
the triplet of the `i`-th entries per discharge, blank when shorter. -/
def csvRows (m : MStat) : List (List CsvCell) :=
  (List.range (maxRowsOf m)).map (fun i =>
    m.dischargeIds.flatMap (fun id =>
      [cellOfQ ((getAssoc m.discharges id emptyDStat).justifications.get? i),
       cellOfN ((getAssoc m.discharges id emptyDStat).thresholds.get? i),
       cellOfN ((getAssoc m.discharges id emptyDStat).count_thresholds.get? i)]))

/-! ## Theorems -/

lemma confidencesFor_length (l : List ModelResponse) (c : ℕ) :
    (confidencesFor l c).length = votesFor l c := by
  unfold confidencesFor votesFor
  induction successfulResponses l with
  | nil => simp
  | cons r rs ih =>
    by_cases h : predictionOf r = some c
    · simp [List.filterMap_cons, List.countP_cons, h, ih]
    · simp [List.filterMap_cons, List.countP_cons, h, ih]

/-- C3: for any list of model responses whose successful predictions lie in
{0, 1}, `applyVoting` returns the class with strictly more votes as
`decision` and the arithmetic mean of the confidences recorded for that class
as `confidence` (within 1e-9, here exactly); on a tie it returns
`decision = none` with confidence 0; with no valid prediction it returns
`decision = none`, confidence 0 and the message
"No models returned valid predictions". -/
theorem applyVoting_vote_correctness (l : List ModelResponse)
    (hpred : ∀ r ∈ successfulResponses l,
      predictionOf r = some 0 ∨ predictionOf r = some 1) :
    (successfulResponses l = [] →
      applyVoting l =
        { votes := none, totalVotes := none, totalModels := none,
          decision := none, confidence := 0,
          message := "No models returned valid predictions" })
    ∧ (votesFor l 0 = votesFor l 1 →
        (applyVoting l).decision = none ∧ (applyVoting l).confidence = 0)
    ∧ (∀ c : ℕ, c ≤ 1 → votesFor l (1 - c) < votesFor l c →
        (applyVoting l).decision = some c ∧
        |(applyVoting l).confidence -
          (confidencesFor l c).sum / ((confidencesFor l c).length : ℚ)| ≤
            1 / 1000000000) := by
  refine ⟨?_, ?_, ?_⟩
  · intro h
    simp [applyVoting, h]
  · intro h
    by_cases he : (successfulResponses l).isEmpty
    · simp [applyVoting, he]
    · simp [applyVoting, he, h]
  · intro c hc hv
    have hne : ¬ (successfulResponses l).isEmpty := by
      intro he
      have : successfulResponses l = [] := List.isEmpty_iff.mp he
      simp [votesFor, this] at hv
    interval_cases c
    · have h01 : votesFor l 1 < votesFor l 0 := by simpa using hv
      have hlen : 0 < (confidencesFor l 0).length := by
        rw [confidencesFor_length]
        omega
      constructor
      · simp [applyVoting, hne, h01]
      · simp [applyVoting, hne, h01, hlen]
    · have h10 : votesFor l 0 < votesFor l 1 := by simpa using hv
      have hlen : 0 < (confidencesFor l 1).length := by
        rw [confidencesFor_length]
        omega
      have hnl : ¬ (votesFor l 1 < votesFor l 0) := by omega
      constructor
      · simp [applyVoting, hne, h10, hnl]
      · simp [applyVoting, hne, h10, hnl, hlen]

/-- Witness for C3 at the spec scenario S2 (two class-1 votes at 0.6/0.8,
one class-0 vote at 0.7): decision 1, confidence the class-1 mean 0.7. -/
theorem applyVoting_vote_correctness_w :
    (∀ r ∈ successfulResponses
        [mkSuccess1 (.num (3/5)), mkSuccess1 (.num (4/5)),
         { status := "success", result := some { prediction := some 0, confidence := .num (7/10) } }],
      predictionOf r = some 0 ∨ predictionOf r = some 1) ∧
    ((applyVoting
        [mkSuccess1 (.num (3/5)), mkSuccess1 (.num (4/5)),
         { status := "success", result := some { prediction := some 0, confidence := .num (7/10) } }]).decision = some 1 ∧
      |(applyVoting
        [mkSuccess1 (.num (3/5)), mkSuccess1 (.num (4/5)),
         { status := "success", result := some { prediction := some 0, confidence := .num (7/10) } }]).confidence -
        (confidencesFor
          [mkSuccess1 (.num (3/5)), mkSuccess1 (.num (4/5)),
           { status := "success", result := some { prediction := some 0, confidence := .num (7/10) } }] 1).sum /
          ((confidencesFor
            [mkSuccess1 (.num (3/5)), mkSuccess1 (.num (4/5)),
             { status := "success", result := some { prediction := some 0, confidence := .num (7/10) } }] 1).length : ℚ)| ≤
          1 / 1000000000) :=
  ⟨by decide, (applyVoting_vote_correctness _ (by decide)).2.2 1 (by decide) (by decide)⟩

/-- C10: in `applyVoting` the `confidence || 1.0` default substitutes `1.0`
for every falsy confidence (`0`, `null`, `undefined`, `NaN`), so a winning
list of class-1 responses yields the mean of the defaulted confidences. -/
theorem applyVoting_falsy_confidence (cs : List JsNum) (h : cs ≠ []) :
    (applyVoting (cs.map mkSuccess1)).decision = some 1 ∧
    (applyVoting (cs.map mkSuccess1)).confidence = (cs.map jsOrOne).sum / (cs.length : ℚ) ∧
    jsOrOne (.num 0) = 1 ∧ jsOrOne .nullv = 1 ∧ jsOrOne .undefined = 1 ∧ jsOrOne .nan = 1 := by
  have hsucc : successfulResponses (cs.map mkSuccess1) = cs.map mkSuccess1 := by
    unfold successfulResponses
    apply List.filter_eq_self.mpr
    intro r hr
    obtain ⟨c, _, rfl⟩ := List.mem_map.mp hr
    rfl
  have hv1 : votesFor (cs.map mkSuccess1) 1 = cs.length := by
    unfold votesFor
    rw [hsucc, List.countP_map]
    apply List.countP_eq_length.mpr
    intro c _
    rfl
  have hv0 : votesFor (cs.map mkSuccess1) 0 = 0 := by
    unfold votesFor
    rw [hsucc, List.countP_map]
    rw [List.countP_eq_zero.mpr]
    intro c _
    simp [predictionOf, mkSuccess1]
  have hconf : confidencesFor (cs.map mkSuccess1) 1 = cs.map jsOrOne := by
    unfold confidencesFor
    rw [hsucc, List.filterMap_map]
    clear h hsucc hv1 hv0
    induction cs with
    | nil => rfl
    | cons c rest ih =>
      simpa [predictionOf, confidenceOf, mkSuccess1] using ih
  have hne : ¬ (successfulResponses (cs.map mkSuccess1)).isEmpty := by
    rw [hsucc]
    simp [h]
  have hlen : 0 < cs.length := List.length_pos.mpr h
  refine ⟨?_, ?_, rfl, rfl, rfl, rfl⟩
  · simp [applyVoting, hne, hv0, hv1, hlen]
  · simp [applyVoting, hne, hv0, hv1, hconf, hlen]

/-- Witness for C10: confidences `[0, 0.5]` yield mean `(1 + 0.5)/2`. -/
theorem applyVoting_falsy_confidence_w :
    ([JsNum.num 0, JsNum.num (1/2)] ≠ []) ∧
    ((applyVoting ([JsNum.num 0, JsNum.num (1/2)].map mkSuccess1)).decision = some 1 ∧
     (applyVoting ([JsNum.num 0, JsNum.num (1/2)].map mkSuccess1)).confidence =
        ([JsNum.num 0, JsNum.num (1/2)].map jsOrOne).sum / (([JsNum.num 0, JsNum.num (1/2)].length : ℕ) : ℚ) ∧
     jsOrOne (.num 0) = 1 ∧ jsOrOne .nullv = 1 ∧ jsOrOne .undefined = 1 ∧ jsOrOne .nan = 1) :=
  ⟨by simp, applyVoting_falsy_confidence _ (by simp)⟩

lemma lookup_append_task (t : NodeTask) (ms : List (String × List NodeTask)) (m : String) :
    (ms.map (fun p => (p.1, p.2 ++ [t]))).lookup m = (ms.lookup m).map (fun q => q ++ [t]) := by
  induction ms with
  | nil => rfl
  | cons p rest ih =>
      cases p with
      | mk k v =>
          by_cases h : m == k
          · simp [List.lookup, h]
          · simp [List.lookup, h, ih]

lemma lookup_start (accepted : List String) (m : String) (hm : m ∈ accepted) (total : Int) :
    ((startTrainingSession total accepted).models.lookup m) = some [] := by
  unfold startTrainingSession
  induction accepted with
  | nil => cases hm
  | cons a rest ih =>
      rcases List.mem_cons.mp hm with h | h
      · subst h
        simp [List.lookup]
      · by_cases hak : m == a
        · simp [List.lookup, hak]
        · simpa [List.lookup, hak] using ih h

lemma queueOf_processDischarge (s : TrainingSession) (d : Discharge) (m : String)
    (hm : (s.models.lookup m).isSome) :
    (processDischarge s d).models.lookup m =
      some (queueOf s m ++ [{ seq := s.sent + 1, payload := d }]) := by
  unfold processDischarge queueOf
  dsimp only
  rw [lookup_append_task]
  obtain ⟨q, hq⟩ := Option.isSome_iff_exists.mp hm
  simp [hq]

lemma sendBatch_spec (steps : List Discharge) :
    ∀ (s : TrainingSession) (m : String), (s.models.lookup m).isSome →
      (sendTrainingBatchProcessed s steps).sent = s.sent + steps.length ∧
      ((sendTrainingBatchProcessed s steps).models.lookup m).isSome ∧
      (queueOf (sendTrainingBatchProcessed s steps) m).map (·.seq) =
        (queueOf s m).map (·.seq) ++ List.range' (s.sent + 1) steps.length ∧
      (queueOf (sendTrainingBatchProcessed s steps) m).map (·.payload) =
        (queueOf s m).map (·.payload) ++ steps := by
  induction steps with
  | nil =>
      intro s m hm
      simp [sendTrainingBatchProcessed, hm]
  | cons d ds ih =>
      intro s m hm
      have hstep : (processDischarge s d).models.lookup m =
          some (queueOf s m ++ [{ seq := s.sent + 1, payload := d }]) :=
        queueOf_processDischarge s d m hm
      have hm2 : ((processDischarge s d).models.lookup m).isSome := by
        simp [hstep]
      have hq2 : queueOf (processDischarge s d) m =
          queueOf s m ++ [{ seq := s.sent + 1, payload := d }] := by
        simp [queueOf, hstep]
      have hsent : (processDischarge s d).sent = s.sent + 1 := rfl
      obtain ⟨ihs, ihm, ihseq, ihpay⟩ := ih (processDischarge s d) m hm2
      have hfold : sendTrainingBatchProcessed s (d :: ds) =
          sendTrainingBatchProcessed (processDischarge s d) ds := rfl
      refine ⟨?_, ?_, ?_, ?_⟩
      · rw [hfold, ihs, hsent]
        simp
        omega
      · rw [hfold]
        exact ihm
      · rw [hfold, ihseq, hq2, hsent]
        simp [List.range'_succ]
      · rw [hfold, ihpay, hq2]
        simp

lemma filterMap_runTask (t : NodeTask) (f : ℕ) :
    (runTask t f).filterMap (fun e => if e.2 then some e.1 else none) = [t.seq] := by
  unfold runTask
  induction f with
  | zero => simp
  | succ n ih => simpa [List.replicate_succ] using ih

lemma observedOrdinals_eq (q : List NodeTask) :
    ∀ fails, observedOrdinals q fails = q.map (·.seq) := by
  induction q with
  | nil =>
      intro fails
      cases fails <;> rfl
  | cons t ts ih =>
      intro fails
      cases fails with
      | nil =>
          show (runTask t 0 ++ nodeObservations ts []).filterMap _ = _
          rw [List.filterMap_append, filterMap_runTask]
          simpa using ih []
      | cons f fs =>
          show (runTask t f ++ nodeObservations ts fs).filterMap _ = _
          rw [List.filterMap_append, filterMap_runTask]
          simpa using ih fs

lemma foldl_batches (batches : List (List Discharge)) :
    ∀ s : TrainingSession,
      batches.foldl sendTrainingBatchProcessed s = sendTrainingBatchProcessed s batches.flatten := by
  induction batches with
  | nil =>
      intro s
      rfl
  | cons b bs ih =>
      intro s
      show bs.foldl sendTrainingBatchProcessed (sendTrainingBatchProcessed s b) = _
      rw [ih]
      simp [sendTrainingBatchProcessed, List.foldl_append]

/-- C1: for every node registered in a session, the ordinals of the
successful POSTs the node observes form exactly `1, 2, …, sent`, in order,
for any sequence of atomically-processed discharges (covering interleaved
batches) and any injection of transport retries; and processing batches one
after another equals processing their concatenation. -/
theorem ordinals_exact_sequence (total : Int) (accepted : List String) (m : String)
    (hm : m ∈ accepted) (steps : List Discharge) (fails : List ℕ) :
    observedOrdinals
        (queueOf (sendTrainingBatchProcessed (startTrainingSession total accepted) steps) m)
        fails = List.range' 1 steps.length ∧
    (sendTrainingBatchProcessed (startTrainingSession total accepted) steps).sent =
      steps.length ∧
    ∀ (s : TrainingSession) (batches : List (List Discharge)),
      batches.foldl sendTrainingBatchProcessed s = sendTrainingBatchProcessed s batches.flatten := by
  have hs : ((startTrainingSession total accepted).models.lookup m).isSome := by
    rw [lookup_start accepted m hm total]
    rfl
  obtain ⟨h1, _, h3, _⟩ := sendBatch_spec steps (startTrainingSession total accepted) m hs
  have hq0 : queueOf (startTrainingSession total accepted) m = [] := by
    simp [queueOf, lookup_start accepted m hm total]
  refine ⟨?_, ?_, fun s batches => foldl_batches batches s⟩
  · rw [observedOrdinals_eq, h3, hq0]
    simp [startTrainingSession]
  · rw [h1]
    simp [startTrainingSession]

/-- Witness for C1: two nodes, three discharges, retries injected on tasks
1 and 3 of node "a"; node "a" observes exactly `[1, 2, 3]`. -/
theorem ordinals_exact_sequence_w :
    ("a" ∈ ["a", "b"]) ∧
    (observedOrdinals
        (queueOf (sendTrainingBatchProcessed (startTrainingSession 3 ["a", "b"])
          [{ id := "d1", signals := none, times := none, length := 1, anomalyTime := none },
           { id := "d2", signals := none, times := none, length := 1, anomalyTime := none },
           { id := "d3", signals := none, times := none, length := 1, anomalyTime := none }]) "a")
        [2, 0, 1] =
      List.range' 1
        ([({ id := "d1", signals := none, times := none, length := 1, anomalyTime := none } : Discharge),
          { id := "d2", signals := none, times := none, length := 1, anomalyTime := none },
          { id := "d3", signals := none, times := none, length := 1, anomalyTime := none }].length) ∧
      (sendTrainingBatchProcessed (startTrainingSession 3 ["a", "b"])
          [{ id := "d1", signals := none, times := none, length := 1, anomalyTime := none },
           { id := "d2", signals := none, times := none, length := 1, anomalyTime := none },
           { id := "d3", signals := none, times := none, length := 1, anomalyTime := none }]).sent =
        ([({ id := "d1", signals := none, times := none, length := 1, anomalyTime := none } : Discharge),
          { id := "d2", signals := none, times := none, length := 1, anomalyTime := none },
          { id := "d3", signals := none, times := none, length := 1, anomalyTime := none }].length) ∧
      ∀ (s : TrainingSession) (batches : List (List Discharge)),
        batches.foldl sendTrainingBatchProcessed s = sendTrainingBatchProcessed s batches.flatten) :=
  ⟨by decide, ordinals_exact_sequence 3 ["a", "b"] "a" (by decide) _ _⟩

/-- Counterexample to C2: submitting the same `id = "d1"` in two
`sendTrainingBatch` calls consumes two ordinals and enqueues two POSTs for
that id at the node — there is no `seenIds` de-duplication in the code. -/
theorem dedup_counterexample :
    (sendTrainingBatch
        (sendTrainingBatch (startTrainingSession 2 ["test"])
          [{ id := some "d1", files := none, signals := some [], times := some [],
             length := some 1, anomalyTime := none }]).1
        [{ id := some "d1", files := none, signals := some [], times := some [],
           length := some 1, anomalyTime := none }]).2 = none ∧
    (queueOf (sendTrainingBatch
        (sendTrainingBatch (startTrainingSession 2 ["test"])
          [{ id := some "d1", files := none, signals := some [], times := some [],
             length := some 1, anomalyTime := none }]).1
        [{ id := some "d1", files := none, signals := some [], times := some [],
           length := some 1, anomalyTime := none }]).1 "test").countP
      (fun t => t.payload.id == "d1") = 2 ∧
    (sendTrainingBatch
        (sendTrainingBatch (startTrainingSession 2 ["test"])
          [{ id := some "d1", files := none, signals := some [], times := some [],
             length := some 1, anomalyTime := none }]).1
        [{ id := some "d1", files := none, signals := some [], times := some [],
           length := some 1, anomalyTime := none }]).1.sent = 2 ∧
    ¬ ((queueOf (sendTrainingBatch
        (sendTrainingBatch (startTrainingSession 2 ["test"])
          [{ id := some "d1", files := none, signals := some [], times := some [],
             length := some 1, anomalyTime := none }]).1
        [{ id := some "d1", files := none, signals := some [], times := some [],
           length := some 1, anomalyTime := none }]).1 "test").countP
      (fun t => t.payload.id == "d1") = 1) := by
  decide

/-- C2 amended: `sendTrainingBatch` performs no de-duplication: every
submitted discharge consumes one fresh ordinal, and the number of POSTs a
node receives for a given id equals the number of submissions with that id. -/
theorem no_dedup_every_submission_posts (total : Int) (accepted : List String) (m : String)
    (hm : m ∈ accepted) (steps : List Discharge) (x : String) :
    ((queueOf (sendTrainingBatchProcessed (startTrainingSession total accepted) steps) m).countP
        (fun t => t.payload.id == x)) = steps.countP (fun d => d.id == x) ∧
    (sendTrainingBatchProcessed (startTrainingSession total accepted) steps).sent =
      steps.length := by
  have hs : ((startTrainingSession total accepted).models.lookup m).isSome := by
    rw [lookup_start accepted m hm total]
    rfl
  obtain ⟨h1, _, _, h4⟩ := sendBatch_spec steps (startTrainingSession total accepted) m hs
  have hq0 : queueOf (startTrainingSession total accepted) m = [] := by
    simp [queueOf, lookup_start accepted m hm total]
  constructor
  · have hpay : (queueOf (sendTrainingBatchProcessed (startTrainingSession total accepted) steps)
        m).map (·.payload) = steps := by
      rw [h4, hq0]
      rfl
    conv_rhs => rw [← hpay, List.countP_map]
    rfl
  · rw [h1]
    simp [startTrainingSession]

/-- Witness for the amended C2: the duplicate pair `[d1, d1]` produces two
queued POSTs for `"d1"` and `sent = 2`. -/
theorem no_dedup_every_submission_posts_w :
    ("test" ∈ ["test"]) ∧
    (((queueOf (sendTrainingBatchProcessed (startTrainingSession 2 ["test"])
        [{ id := "d1", signals := none, times := none, length := 1, anomalyTime := none },
         { id := "d1", signals := none, times := none, length := 1, anomalyTime := none }])
        "test").countP (fun t => t.payload.id == "d1")) =
      ([({ id := "d1", signals := none, times := none, length := 1, anomalyTime := none } : Discharge),
        { id := "d1", signals := none, times := none, length := 1, anomalyTime := none }].countP
          (fun d => d.id == "d1")) ∧
      (sendTrainingBatchProcessed (startTrainingSession 2 ["test"])
        [{ id := "d1", signals := none, times := none, length := 1, anomalyTime := none },
         { id := "d1", signals := none, times := none, length := 1, anomalyTime := none }]).sent =
        ([({ id := "d1", signals := none, times := none, length := 1, anomalyTime := none } : Discharge),
          { id := "d1", signals := none, times := none, length := 1, anomalyTime := none }].length)) :=
  ⟨by decide, no_dedup_every_submission_posts 2 ["test"] "test" (by decide) _ "d1"⟩

lemma postWithRetry_transport_forever (msg : String) (hS : isNetworkError msg = true) (n : ℕ) :
    postWithRetry (List.replicate n (some msg)) = .retrying n := by
  induction n with
  | zero => rfl
  | succ k ih => simp [List.replicate_succ, postWithRetry, hS, ih]

lemma postWithRetry_success (rest : List (Option String)) (pre : List (Option String))
    (hpre : pre.all (fun e => match e with | some m => isNetworkError m | none => false)) :
    postWithRetry (pre ++ none :: rest) = .success pre.length := by
  induction pre with
  | nil => rfl
  | cons e pre' ih =>
      match e with
      | none => simp at hpre
      | some m =>
          simp only [List.all_cons, Bool.and_eq_true] at hpre
          obtain ⟨hm, hrest⟩ := hpre
          simp [postWithRetry, hm, ih hrest]

lemma postWithRetry_thrown (msgF : String) (hF : isNetworkError msgF = false)
    (rest : List (Option String)) (pre : List (Option String))
    (hpre : pre.all (fun e => match e with | some m => isNetworkError m | none => false)) :
    postWithRetry (pre ++ some msgF :: rest) = .thrown msgF pre.length := by
  induction pre with
  | nil => simp [postWithRetry, hF]
  | cons e pre' ih =>
      match e with
      | none => simp at hpre
      | some m =>
          simp only [List.all_cons, Bool.and_eq_true] at hpre
          obtain ⟨hm, hrest⟩ := hpre
          simp [postWithRetry, hm, ih hrest]

/-- Counterexample to C4: the transport-error classes the claim enumerates
are not retried.  In this Node server, axios surfaces connection refused,
DNS failure, connection reset and truncated responses as
`connect ECONNREFUSED ...`, `getaddrinfo ENOTFOUND ...`, `read ECONNRESET`
and `socket hang up` — none of which contains the "Network Error" substring
that `postWithRetry` (line 666) looks for (that message comes from the
browser XHR adapter and appears in this repository only as a jest-mock
injection).  A connection-refused failure with a success available on the
next attempt is rethrown immediately with zero 500 ms delays, while the
claim requires it to be retried until it succeeds. -/
theorem transport_errors_not_retried_cex :
    isNetworkError "connect ECONNREFUSED 127.0.0.1:8001" = false ∧
    isNetworkError "getaddrinfo ENOTFOUND train-node" = false ∧
    isNetworkError "read ECONNRESET" = false ∧
    isNetworkError "socket hang up" = false ∧
    postWithRetry [some "connect ECONNREFUSED 127.0.0.1:8001", none] =
      .thrown "connect ECONNREFUSED 127.0.0.1:8001" 0 ∧
    ¬ (postWithRetry [some "connect ECONNREFUSED 127.0.0.1:8001", none] = .success 1) ∧
    postWithRetry [some "Network Error", none] = .success 1 := by
  decide

/-- C4 amended: the training-start and per-discharge POSTs (both through
`postWithRetry`) retry indefinitely with a 500 ms backoff exactly when the
error message contains "Network Error" — the browser-axios transport
message, the one the tests of this repository inject — and every other error
message propagates immediately with no retry: the Node transport-error
messages for connection refused, DNS failure, connection reset and
truncated response, as well as HTTP 4xx/5xx
("Request failed with status code 500") and timeout
("timeout of ...ms exceeded"). -/
theorem retry_policy (pre rest : List (Option String)) (msgS msgF : String) (n : ℕ)
    (url : String) (seq : ℕ)
    (hpre : pre.all (fun e => match e with | some m => isNetworkError m | none => false) = true)
    (hS : isNetworkError msgS = true) (hF : isNetworkError msgF = false) :
    postWithRetry (List.replicate n (some msgS)) = .retrying n ∧
    retryDelayMs = 500 ∧
    postWithRetry (pre ++ none :: rest) = .success pre.length ∧
    postWithRetry (pre ++ some msgF :: rest) = .thrown msgF pre.length ∧
    sendDischargeWithRetry url seq (pre ++ none :: rest) =
      (url ++ "/" ++ toString seq, .success pre.length) ∧
    isNetworkError "Network Error" = true ∧
    isNetworkError "Request failed with status code 500" = false ∧
    isNetworkError "timeout of 30000ms exceeded" = false ∧
    isNetworkError "connect ECONNREFUSED 127.0.0.1:8001" = false ∧
    isNetworkError "getaddrinfo ENOTFOUND train-node" = false ∧
    isNetworkError "read ECONNRESET" = false ∧
    isNetworkError "socket hang up" = false ∧
    postWithRetry (some "connect ECONNREFUSED 127.0.0.1:8001" :: rest) =
      .thrown "connect ECONNREFUSED 127.0.0.1:8001" 0 := by
  have hcr : isNetworkError "connect ECONNREFUSED 127.0.0.1:8001" = false := by decide
  refine ⟨postWithRetry_transport_forever msgS hS n, rfl,
    postWithRetry_success rest pre hpre, postWithRetry_thrown msgF hF rest pre hpre, ?_,
    by decide, by decide, by decide, hcr, by decide, by decide, by decide, ?_⟩
  · unfold sendDischargeWithRetry
    rw [postWithRetry_success rest pre hpre]
  · simp [postWithRetry, hcr]

/-- Witness for the amended C4: one "Network Error" failure then success
gives one 500 ms retry; a protocol error after a transport failure
propagates at once; a connection-refused message is thrown with no retry. -/
theorem retry_policy_w :
    ([some "Network Error"].all
        (fun e => match e with | some m => isNetworkError m | none => false) = true ∧
      isNetworkError "Network Error" = true ∧
      isNetworkError "Request failed with status code 500" = false) ∧
    (postWithRetry (List.replicate 3 (some "Network Error")) = .retrying 3 ∧
      retryDelayMs = 500 ∧
      postWithRetry ([some "Network Error"] ++ none :: []) =
        .success [some "Network Error"].length ∧
      postWithRetry ([some "Network Error"] ++ some "Request failed with status code 500" :: []) =
        .thrown "Request failed with status code 500" [some "Network Error"].length ∧
      sendDischargeWithRetry "http://localhost:9999/train" 1 ([some "Network Error"] ++ none :: []) =
        ("http://localhost:9999/train" ++ "/" ++ toString 1, .success [some "Network Error"].length) ∧
      isNetworkError "Network Error" = true ∧
      isNetworkError "Request failed with status code 500" = false ∧
      isNetworkError "timeout of 30000ms exceeded" = false ∧
      isNetworkError "connect ECONNREFUSED 127.0.0.1:8001" = false ∧
      isNetworkError "getaddrinfo ENOTFOUND train-node" = false ∧
      isNetworkError "read ECONNRESET" = false ∧
      isNetworkError "socket hang up" = false ∧
      postWithRetry (some "connect ECONNREFUSED 127.0.0.1:8001" :: []) =
        .thrown "connect ECONNREFUSED 127.0.0.1:8001" 0) :=
  ⟨⟨by decide, by decide, by decide⟩,
    retry_policy [some "Network Error"] [] "Network Error"
      "Request failed with status code 500" 3 "http://localhost:9999/train" 1
      (by decide) (by decide) (by decide)⟩

/-- C5 (code bug): a client that supplies `totalDischarges` on `/train`
never gets the auto-finish the controller codes for: the service drops the
second `startTrainingSession` argument, and the controller compares the
never-assigned `trainingSession.enqueued` (`undefined >= n` is `false`), so
after both calls the session still exists with `autoFinish = true`,
`sent = totalDischarges = 2` and `enqueued` undefined — it is never
destroyed automatically. -/
theorem autoFinish_never_fires :
    (fun (body1 body2 : TrainBody) =>
        (train none ["test"] body1).2 = true ∧
        ((train none ["test"] body1).1.map
          (fun s => (s.autoFinish, s.sent, s.totalDischarges, s.enqueued))) =
          some (none, 1, 2, none) ∧
        (train (train none ["test"] body1).1 ["test"] body2).2 = true ∧
        ((train (train none ["test"] body1).1 ["test"] body2).1.map
          (fun s => (s.autoFinish, s.sent, s.totalDischarges, s.enqueued))) =
          some (some true, 2, 2, none))
      { discharges := [{ id := some "d1", files := none, signals := some [],
                         times := some [], length := some 1, anomalyTime := none }],
        totalDischarges := some 2 }
      { discharges := [{ id := some "d2", files := none, signals := some [],
                         times := some [], length := some 1, anomalyTime := none }],
        totalDischarges := some 2 } := by
  decide

/-- Counterexample to C6: a request with `discharges = []` passes
`orchestrate`'s validation (an empty JS array is truthy and is an array),
every enabled node is contacted with an `undefined` payload, and `predict`
answers 200 — not 400. -/
theorem orchestrate_empty_discharges_cex :
    ((orchestrate [("a", true)] (fun _ _ => mkSuccess1 (.num 1))
        { discharges := some [] }).toOption.map (fun r => r.dispatched)) =
      some [("a", none)] ∧
    predict [("a", true)] (fun _ _ => mkSuccess1 (.num 1))
      (some { discharges := some [] }) = .ok ∧
    ¬ (predict [("a", true)] (fun _ _ => mkSuccess1 (.num 1))
        (some { discharges := some [] }) = .badRequest) := by
  decide

/-- C6 amended: `orchestrate` rejects only a missing or non-array
`discharges` field (surfaced by `predict` as 400 through its own identical
check); an empty `discharges` array passes validation and every enabled node
is POSTed `discharges[0]` (`undefined`), with no 400. -/
theorem orchestrate_validation (models : List (String × Bool))
    (respond : String → Option Discharge → ModelResponse) (data : PredictData)
    (henabled : enabledModels models ≠ []) :
    (data.discharges = none →
      (orchestrate models respond data =
        .error "Formato de datos inválido: se espera un objeto con array discharges") ∧
      predict models respond (some data) = .badRequest) ∧
    (∀ ds, data.discharges = some ds →
      ∃ r, orchestrate models respond data = .ok r ∧
        r.dispatched = (enabledModels models).map (fun m => (m, ds.head?)) ∧
        predict models respond (some data) ≠ .badRequest) := by
  constructor
  · intro h
    exact ⟨by simp [orchestrate, h], by simp [predict, h]⟩
  · intro ds h
    have hne : ¬ (enabledModels models).isEmpty := by
      simpa [List.isEmpty_iff] using henabled
    refine ⟨{ dispatched := (enabledModels models).map (fun m => (m, ds.head?)),
              models := (enabledModels models).map (fun m => respond m ds.head?),
              voting := applyVoting ((enabledModels models).map (fun m => respond m ds.head?)) },
            ?_, rfl, ?_⟩
    · simp [orchestrate, h, hne]
    · simp only [predict, h, orchestrate, hne]
      simp only [Bool.false_eq_true, if_false]
      split <;> simp

/-- Witness for the amended C6 at one enabled node and an empty
`discharges` array. -/
theorem orchestrate_validation_w :
    (enabledModels [("a", true)] ≠ []) ∧
    ((({ discharges := some [] } : PredictData).discharges = none →
      (orchestrate [("a", true)] (fun _ _ => mkSuccess1 (.num 1)) { discharges := some [] } =
        .error "Formato de datos inválido: se espera un objeto con array discharges") ∧
      predict [("a", true)] (fun _ _ => mkSuccess1 (.num 1))
        (some { discharges := some [] }) = .badRequest) ∧
    (∀ ds, ({ discharges := some [] } : PredictData).discharges = some ds →
      ∃ r, orchestrate [("a", true)] (fun _ _ => mkSuccess1 (.num 1))
          { discharges := some [] } = .ok r ∧
        r.dispatched = (enabledModels [("a", true)]).map (fun m => (m, ds.head?)) ∧
        predict [("a", true)] (fun _ _ => mkSuccess1 (.num 1))
          (some { discharges := some [] }) ≠ .badRequest)) :=
  ⟨by decide,
    orchestrate_validation [("a", true)] (fun _ _ => mkSuccess1 (.num 1))
      { discharges := some [] } (by decide)⟩

/-- Counterexample to C7: two files whose times differ at index 1 are
parsed successfully — `parseSensorFiles` returns both signals plus a
warning instead of rejecting the discharge. -/
theorem parseSensorFiles_mismatch_cex :
    (parseSensorFiles [{ name := "a", parsed := some ([0, 1], [5, 5]) },
                       { name := "b", parsed := some ([0, 2], [6, 6]) }]).toOption =
      some { signals := [{ fileName := "a", values := some [5, 5] },
                         { fileName := "b", values := some [6, 6] }],
             times := some [0, 1], length := 2,
             warnings := ["Signal b time mismatch at index 1"] } ∧
    ¬ ((parseSensorFiles [{ name := "a", parsed := some ([0, 1], [5, 5]) },
                          { name := "b", parsed := some ([0, 2], [6, 6]) }]).toOption = none) := by
  decide

lemma timesWarnings_ne_nil (t0 ts : List ℚ) (name : String)
    (h : ts.length ≠ t0.length ∨ ∃ i, i < t0.length ∧ ts.getD i 0 ≠ t0.getD i 0) :
    timesWarnings t0 name ts ≠ [] := by
  rcases h with h | ⟨i, hi, hne⟩
  · simp [timesWarnings, h]
  · by_cases hl : ts.length ≠ t0.length
    · simp [timesWarnings, hl]
    · cases hfind : (List.range t0.length).find? (fun i => decide (ts.getD i 0 ≠ t0.getD i 0)) with
      | none =>
          exfalso
          have := List.find?_eq_none.mp hfind i (List.mem_range.mpr hi)
          simp at this
          exact hne (by simpa using this)
      | some j =>
          unfold timesWarnings
          rw [if_neg hl, hfind]
          simp

lemma parseAux_ok (t0 : List ℚ) (rest : List SensorFile) :
    ∀ (idx : ℕ) (sigs : List Signal) (warns : List String),
      idx ≠ 0 → (∀ f ∈ rest, f.parsed.isSome) →
      ∃ r, parseSensorFilesAux idx (some t0) sigs warns rest = .ok r ∧
        r.signals.length = sigs.length + rest.length ∧
        r.times = some t0 ∧
        r.warnings = warns ++
          rest.flatMap (fun f => timesWarnings t0 f.name (f.parsed.getD ([], [])).1) := by
  induction rest with
  | nil =>
      intro idx sigs warns _ _
      exact ⟨_, rfl, by simp, rfl, by simp⟩
  | cons f fs ih =>
      intro idx sigs warns hidx hall
      obtain ⟨⟨ts, vs⟩, hp⟩ := Option.isSome_iff_exists.mp (hall f (by simp))
      have hfs : ∀ g ∈ fs, g.parsed.isSome := fun g hg => hall g (by simp [hg])
      obtain ⟨r, hr, hlen, htimes, hwarns⟩ :=
        ih (idx + 1) (sigs ++ [{ fileName := f.name, values := some vs }])
          (warns ++ timesWarnings t0 f.name ts) (by omega) hfs
      refine ⟨r, ?_, ?_, htimes, ?_⟩
      · show parseSensorFilesAux idx (some t0) sigs warns (f :: fs) = .ok r
        unfold parseSensorFilesAux
        rw [hp]
        simp only [hidx, if_false]
        simpa using hr
      · rw [hlen]
        simp
        omega
      · rw [hwarns]
        simp [List.flatMap_cons, hp, List.append_assoc]

/-- C7 amended: when a later file's times are inconsistent with the first
file's (length differs, or a value differs at an equal index),
`parseSensorFiles` still succeeds, returns all signals with the first file's
times as the shared axis, and logs a warning — it does not reject. -/
theorem parseSensorFiles_warn_accept (f0 : SensorFile) (t0 v0 : List ℚ)
    (rest : List SensorFile) (h0 : f0.parsed = some (t0, v0))
    (hall : ∀ f ∈ rest, f.parsed.isSome)
    (hmis : ∃ f ∈ rest, ∃ ts vs, f.parsed = some (ts, vs) ∧
      (ts.length ≠ t0.length ∨ ∃ i, i < t0.length ∧ ts.getD i 0 ≠ t0.getD i 0)) :
    ∃ r, parseSensorFiles (f0 :: rest) = .ok r ∧
      r.signals.length = rest.length + 1 ∧
      r.times = some t0 ∧
      r.warnings ≠ [] := by
  obtain ⟨r, hr, hlen, htimes, hwarns⟩ :=
    parseAux_ok t0 rest 1 [{ fileName := f0.name, values := some v0 }] [] (by omega) hall
  refine ⟨r, ?_, ?_, htimes, ?_⟩
  · show parseSensorFilesAux 0 none [] [] (f0 :: rest) = .ok r
    unfold parseSensorFilesAux
    rw [h0]
    simpa using hr
  · rw [hlen]
    simp [Nat.add_comm]
  · obtain ⟨f, hf, ts, vs, hp, hcond⟩ := hmis
    have hw : timesWarnings t0 f.name ts ≠ [] := timesWarnings_ne_nil t0 ts f.name hcond
    obtain ⟨w, hwmem⟩ := List.exists_mem_of_ne_nil _ hw
    have : w ∈ rest.flatMap (fun f => timesWarnings t0 f.name (f.parsed.getD ([], [])).1) := by
      apply List.mem_flatMap.mpr
      exact ⟨f, hf, by simpa [hp] using hwmem⟩
    rw [hwarns]
    exact List.ne_nil_of_mem (by simpa using this)

/-- Witness for the amended C7 at the two-file mismatch input. -/
theorem parseSensorFiles_warn_accept_w :
    (({ name := "a", parsed := some ([0, 1], [5, 5]) } : SensorFile).parsed =
        some ([0, 1], [5, 5])) ∧
    (∃ r, parseSensorFiles [{ name := "a", parsed := some ([0, 1], [5, 5]) },
          { name := "b", parsed := some ([0, 2], [6, 6]) }] = .ok r ∧
        r.signals.length = [({ name := "b", parsed := some ([0, 2], [6, 6]) } : SensorFile)].length + 1 ∧
        r.times = some [0, 1] ∧
        r.warnings ≠ []) :=
  ⟨rfl,
    parseSensorFiles_warn_accept { name := "a", parsed := some ([0, 1], [5, 5]) } [0, 1] [5, 5]
      [{ name := "b", parsed := some ([0, 2], [6, 6]) }] rfl (by decide)
      ⟨{ name := "b", parsed := some ([0, 2], [6, 6]) }, by decide, [0, 2], [6, 6], rfl,
        Or.inr ⟨1, by decide, by decide⟩⟩⟩

/-- Counterexample to C8: in the event trace of one discharge over two
nodes, the session's original discharge is released at index 2 — before the
last per-node task completes at index 5 — and node "a"'s clone is released
at index 4, also before index 5. -/
theorem release_before_tasks_cex :
    dischargeEvents ["a", "b"]
        { id := "d1", signals := none, times := none, length := 1, anomalyTime := none } 1
        ["a", "b"] =
      [.enqueueTask "a" 1, .enqueueTask "b" 1, .releaseOriginal "d1",
       .taskComplete "a" 1, .releaseClone "a" 1, .taskComplete "b" 1, .releaseClone "b" 1] ∧
    (dischargeEvents ["a", "b"]
        { id := "d1", signals := none, times := none, length := 1, anomalyTime := none } 1
        ["a", "b"]).indexOf (.releaseOriginal "d1") = 2 ∧
    (dischargeEvents ["a", "b"]
        { id := "d1", signals := none, times := none, length := 1, anomalyTime := none } 1
        ["a", "b"]).indexOf (.taskComplete "b" 1) = 5 ∧
    (dischargeEvents ["a", "b"]
        { id := "d1", signals := none, times := none, length := 1, anomalyTime := none } 1
        ["a", "b"]).indexOf (.releaseClone "a" 1) = 4 ∧
    (2 : ℕ) < 5 ∧ (4 : ℕ) < 5 := by
  decide

/-- C8 amended: each per-node task owns a `structuredClone` that is
released immediately when that node's task settles, and the session's
reference to the original discharge is released already at enqueue time,
before any task completes; hence after all tasks complete no reference
survives, but releases do happen before the last task completes. -/
theorem release_per_node_clone (nodes : List String) (d : Discharge) (seq : ℕ)
    (sched : List String) (hperm : sched.Perm nodes) (n : String) (hn : n ∈ nodes) :
    ∃ pre suf, dischargeEvents nodes d seq sched =
        pre ++ TaskEvent.taskComplete n seq :: TaskEvent.releaseClone n seq :: suf ∧
      TaskEvent.releaseOriginal d.id ∈ pre := by
  have hns : n ∈ sched := hperm.mem_iff.mpr hn
  obtain ⟨s1, s2, rfl⟩ := List.append_of_mem hns
  refine ⟨nodes.map (fun m => .enqueueTask m seq) ++ [.releaseOriginal d.id] ++
      s1.flatMap (fun m => [.taskComplete m seq, .releaseClone m seq]),
    s2.flatMap (fun m => [.taskComplete m seq, .releaseClone m seq]), ?_, by simp⟩
  unfold dischargeEvents
  simp [List.flatMap_append, List.flatMap_cons, List.append_assoc]

/-- Witness for the amended C8 at two nodes completing in order. -/
theorem release_per_node_clone_w :
    ((["a", "b"] : List String).Perm ["a", "b"] ∧ "a" ∈ ["a", "b"]) ∧
    (∃ pre suf, dischargeEvents ["a", "b"]
          { id := "d1", signals := none, times := none, length := 1, anomalyTime := none } 1
          ["a", "b"] =
        pre ++ TaskEvent.taskComplete "a" 1 :: TaskEvent.releaseClone "a" 1 :: suf ∧
      TaskEvent.releaseOriginal "d1" ∈ pre) :=
  ⟨⟨by decide, by decide⟩,
    release_per_node_clone ["a", "b"]
      { id := "d1", signals := none, times := none, length := 1, anomalyTime := none } 1
      ["a", "b"] (by decide) "a" (by decide)⟩

lemma lookupAssoc_isSome_iff {α : Type} (l : List (String × α)) (k : String) :
    (lookupAssoc l k).isSome ↔ k ∈ l.map Prod.fst := by
  induction l with
  | nil => simp [lookupAssoc]
  | cons p rest ih =>
      by_cases h : p.1 = k
      · simp [lookupAssoc, h]
      · simp [lookupAssoc, h, ih, Ne.symm h]

lemma lookupAssoc_setAssoc_self {α : Type} (l : List (String × α)) (k : String) (v : α) :
    lookupAssoc (setAssoc l k v) k = some v := by
  induction l with
  | nil => simp [setAssoc, lookupAssoc]
  | cons p rest ih =>
      by_cases h : p.1 = k
      · simp [setAssoc, h, lookupAssoc]
      · simp [setAssoc, h, lookupAssoc, ih]

lemma lookupAssoc_setAssoc_ne {α : Type} (l : List (String × α)) (k m : String) (v : α)
    (hmk : m ≠ k) : lookupAssoc (setAssoc l k v) m = lookupAssoc l m := by
  induction l with
  | nil => simp [setAssoc, lookupAssoc, Ne.symm hmk]
  | cons p rest ih =>
      by_cases h : p.1 = k
      · rw [show setAssoc (p :: rest) k v = (k, v) :: rest by simp [setAssoc, h]]
        simp [lookupAssoc, Ne.symm hmk, h]
      · rw [show setAssoc (p :: rest) k v = p :: setAssoc rest k v by simp [setAssoc, h]]
        by_cases hm : p.1 = m
        · simp [lookupAssoc, hm]
        · simp [lookupAssoc, hm, ih]

lemma keys_setAssoc_present {α : Type} (l : List (String × α)) (k : String) (v : α)
    (h : (lookupAssoc l k).isSome) :
    (setAssoc l k v).map Prod.fst = l.map Prod.fst := by
  induction l with
  | nil => simp [lookupAssoc] at h
  | cons p rest ih =>
      by_cases hk : p.1 = k
      · rw [show setAssoc (p :: rest) k v = (k, v) :: rest by simp [setAssoc, hk]]
        simp [hk]
      · rw [show setAssoc (p :: rest) k v = p :: setAssoc rest k v by simp [setAssoc, hk]]
        have h2 : (lookupAssoc rest k).isSome := by
          simpa [lookupAssoc, hk] using h
        simp [ih h2]

lemma keys_setAssoc_absent {α : Type} (l : List (String × α)) (k : String) (v : α)
    (h : ¬ (lookupAssoc l k).isSome) :
    (setAssoc l k v).map Prod.fst = l.map Prod.fst ++ [k] := by
  induction l with
  | nil => simp [setAssoc]
  | cons p rest ih =>
      by_cases hk : p.1 = k
      · exact absurd (by simp [lookupAssoc, hk]) h
      · rw [show setAssoc (p :: rest) k v = p :: setAssoc rest k v by simp [setAssoc, hk]]
        have h2 : ¬ (lookupAssoc rest k).isSome := by
          intro hs
          exact h (by simpa [lookupAssoc, hk] using hs)
        simp [ih h2]

lemma uploadModelStats_ne (st : List (String × MStat)) (id name : String) (jt : ℚ) (ct : ℕ)
    (js : List ℚ) (m : String) (h : name ≠ m) :
    lookupAssoc (uploadModelStats st id name jt ct js) m = lookupAssoc st m := by
  unfold uploadModelStats
  exact lookupAssoc_setAssoc_ne _ name m _ (Ne.symm h)

lemma uploadModelStats_self (st : List (String × MStat)) (id : String) (jt : ℚ) (ct : ℕ)
    (js : List ℚ) (m : String)
    (hk : ∀ mst, lookupAssoc st m = some mst →
      mst.discharges.map Prod.fst = mst.dischargeIds) :
    ∃ mst2, lookupAssoc (uploadModelStats st id m jt ct js) m = some mst2 ∧
      mst2.discharges.map Prod.fst = mst2.dischargeIds ∧
      mst2.dischargeIds =
        (if id ∈ ((lookupAssoc st m).map MStat.dischargeIds).getD [] then
          ((lookupAssoc st m).map MStat.dischargeIds).getD []
        else ((lookupAssoc st m).map MStat.dischargeIds).getD [] ++ [id]) := by
  unfold uploadModelStats
  cases hst : lookupAssoc st m with
  | none =>
      refine ⟨_, lookupAssoc_setAssoc_self _ _ _, ?_, ?_⟩
      · simp [getAssoc, hst, lookupAssoc, setAssoc, emptyDStat]
      · simp [getAssoc, hst, lookupAssoc]
  | some mm =>
      have hkm := hk mm hst
      by_cases hcond : (lookupAssoc mm.discharges id).isSome
      · have hid : id ∈ mm.dischargeIds := by
          rw [← hkm]
          exact (lookupAssoc_isSome_iff _ _).mp hcond
        refine ⟨_, lookupAssoc_setAssoc_self _ _ _, ?_, ?_⟩
        · simp only [getAssoc, hst, Option.getD_some, hcond, if_true]
          rw [keys_setAssoc_present _ _ _ hcond, hkm]
        · simp [getAssoc, hst, hcond, hid]
      · have hid : id ∉ mm.dischargeIds := by
          rw [← hkm]
          intro hmem
          exact hcond ((lookupAssoc_isSome_iff _ _).mpr hmem)
        have hpresent : (lookupAssoc (mm.discharges ++ [(id, emptyDStat)]) id).isSome := by
          rw [lookupAssoc_isSome_iff]
          simp
        refine ⟨_, lookupAssoc_setAssoc_self _ _ _, ?_, ?_⟩
        · simp only [getAssoc, hst, Option.getD_some, hcond, Bool.false_eq_true, if_false]
          rw [keys_setAssoc_present _ _ _ hpresent]
          simp [hkm]
        · simp [getAssoc, hst, hcond, hid]

lemma fold_resps (dischargeId : String) (cfg : String → ℚ × ℕ) (m : String)
    (resps : List WindowResp) :
    ∀ (st : List (String × MStat)),
      (∀ mst, lookupAssoc st m = some mst →
        mst.discharges.map Prod.fst = mst.dischargeIds) →
      (∀ mst, lookupAssoc
          (resps.foldl (fun st r => uploadModelStats st dischargeId r.modelName
            (cfg r.modelName).1 (cfg r.modelName).2 (justArrayOf r.windows)) st) m = some mst →
        mst.discharges.map Prod.fst = mst.dischargeIds) ∧
      ((∀ r ∈ resps, r.modelName ≠ m) →
        lookupAssoc
          (resps.foldl (fun st r => uploadModelStats st dischargeId r.modelName
            (cfg r.modelName).1 (cfg r.modelName).2 (justArrayOf r.windows)) st) m =
          lookupAssoc st m) ∧
      ((∃ r ∈ resps, r.modelName = m) →
        ∃ mst2, lookupAssoc
            (resps.foldl (fun st r => uploadModelStats st dischargeId r.modelName
              (cfg r.modelName).1 (cfg r.modelName).2 (justArrayOf r.windows)) st) m =
            some mst2 ∧
          mst2.dischargeIds =
            (if dischargeId ∈ ((lookupAssoc st m).map MStat.dischargeIds).getD [] then
              ((lookupAssoc st m).map MStat.dischargeIds).getD []
            else ((lookupAssoc st m).map MStat.dischargeIds).getD [] ++ [dischargeId])) := by
  induction resps with
  | nil =>
      intro st hk
      refine ⟨hk, fun _ => rfl, ?_⟩
      rintro ⟨r, hr, -⟩
      cases hr
  | cons r rest ih =>
      intro st hk
      simp only [List.foldl_cons]
      by_cases hname : r.modelName = m
      · rw [hname]
        obtain ⟨mst1, hlook1, hkeys1, hids1⟩ :=
          uploadModelStats_self st dischargeId (cfg m).1 (cfg m).2 (justArrayOf r.windows) m hk
        have hk1 : ∀ mst, lookupAssoc (uploadModelStats st dischargeId m (cfg m).1 (cfg m).2
            (justArrayOf r.windows)) m = some mst →
            mst.discharges.map Prod.fst = mst.dischargeIds := by
          intro mst hmst
          rw [hlook1] at hmst
          cases hmst
          exact hkeys1
        obtain ⟨ih1, ih2, ih3⟩ :=
          ih (uploadModelStats st dischargeId m (cfg m).1 (cfg m).2 (justArrayOf r.windows)) hk1
        refine ⟨ih1, ?_, ?_⟩
        · intro h
          exact absurd hname (h r (by simp))
        · intro _
          have hmem : dischargeId ∈ mst1.dischargeIds := by
            by_cases hin : dischargeId ∈ ((lookupAssoc st m).map MStat.dischargeIds).getD []
            · rw [hids1, if_pos hin]
              exact hin
            · rw [hids1, if_neg hin]
              simp
          by_cases hrest : ∃ r2 ∈ rest, r2.modelName = m
          · obtain ⟨mst2, hl2, hi2⟩ := ih3 hrest
            refine ⟨mst2, hl2, ?_⟩
            rw [hi2, hlook1]
            simp only [Option.map_some', Option.getD_some]
            rw [if_pos hmem]
            exact hids1
          · have hnone : ∀ r2 ∈ rest, r2.modelName ≠ m := by
              intro r2 hr2 hq
              exact hrest ⟨r2, hr2, hq⟩
            refine ⟨mst1, ?_, hids1⟩
            rw [ih2 hnone, hlook1]
      · have hstep : lookupAssoc (uploadModelStats st dischargeId r.modelName
            (cfg r.modelName).1 (cfg r.modelName).2 (justArrayOf r.windows)) m =
            lookupAssoc st m :=
          uploadModelStats_ne _ _ _ _ _ _ _ hname
        have hk1 : ∀ mst, lookupAssoc (uploadModelStats st dischargeId r.modelName
            (cfg r.modelName).1 (cfg r.modelName).2 (justArrayOf r.windows)) m = some mst →
            mst.discharges.map Prod.fst = mst.dischargeIds := by
          intro mst hmst
          rw [hstep] at hmst
          exact hk mst hmst
        obtain ⟨ih1, ih2, ih3⟩ := ih _ hk1
        refine ⟨ih1, ?_, ?_⟩
        · intro h
          rw [ih2 (fun r2 hr2 => h r2 (by simp [hr2]))]
          exact hstep
        · rintro ⟨r2, hr2, hq⟩
          have hr3 : r2 ∈ rest := by
            rcases List.mem_cons.mp hr2 with h | h
            · exact absurd (h ▸ hq) hname
            · exact h
          obtain ⟨mst2, hl2, hi2⟩ := ih3 ⟨r2, hr3, hq⟩
          refine ⟨mst2, hl2, ?_⟩
          rw [hi2, hstep]

lemma upload_inv (m : String) (s : APSession) (id : String) (cfg : String → ℚ × ℕ)
    (resps : List WindowResp) (hm : ∃ r ∈ resps, r.modelName = m)
    (hinv : (lookupAssoc s.stats m = none → s.dischargeOrder = []) ∧
      (∀ mst, lookupAssoc s.stats m = some mst →
        mst.discharges.map Prod.fst = mst.dischargeIds ∧
        mst.dischargeIds = s.dischargeOrder)) :
    (lookupAssoc (uploadAutomatedPredict s id cfg resps).stats m = none →
      (uploadAutomatedPredict s id cfg resps).dischargeOrder = []) ∧
    (∀ mst, lookupAssoc (uploadAutomatedPredict s id cfg resps).stats m = some mst →
      mst.discharges.map Prod.fst = mst.dischargeIds ∧
      mst.dischargeIds = (uploadAutomatedPredict s id cfg resps).dischargeOrder) := by
  have hk : ∀ mst, lookupAssoc s.stats m = some mst →
      mst.discharges.map Prod.fst = mst.dischargeIds :=
    fun mst h => (hinv.2 mst h).1
  obtain ⟨f1, f2, f3⟩ := fold_resps id cfg m resps s.stats hk
  obtain ⟨mst2, hl2, hi2⟩ := f3 hm
  have hold : ((lookupAssoc s.stats m).map MStat.dischargeIds).getD [] = s.dischargeOrder := by
    cases hst : lookupAssoc s.stats m with
    | none => simpa using (hinv.1 hst).symm
    | some mm => simpa using (hinv.2 mm hst).2
  have hstats : (uploadAutomatedPredict s id cfg resps).stats =
      resps.foldl (fun st r => uploadModelStats st id r.modelName
        (cfg r.modelName).1 (cfg r.modelName).2 (justArrayOf r.windows)) s.stats := rfl
  have horder : (uploadAutomatedPredict s id cfg resps).dischargeOrder =
      (if id ∈ s.dischargeOrder then s.dischargeOrder else s.dischargeOrder ++ [id]) := rfl
  constructor
  · intro hnone
    rw [hstats, hl2] at hnone
    cases hnone
  · intro mst hmst
    rw [hstats, hl2] at hmst
    cases hmst
    refine ⟨f1 mst2 hl2, ?_⟩
    rw [hi2, hold, horder]

lemma uploads_inv (m : String)
    (us : List (String × (String → ℚ × ℕ) × List WindowResp)) :
    ∀ (s : APSession), (∀ u ∈ us, ∃ r ∈ u.2.2, r.modelName = m) →
      ((lookupAssoc s.stats m = none → s.dischargeOrder = []) ∧
        (∀ mst, lookupAssoc s.stats m = some mst →
          mst.discharges.map Prod.fst = mst.dischargeIds ∧
          mst.dischargeIds = s.dischargeOrder)) →
      ((lookupAssoc (us.foldl (fun s u => uploadAutomatedPredict s u.1 u.2.1 u.2.2) s).stats m =
          none →
        (us.foldl (fun s u => uploadAutomatedPredict s u.1 u.2.1 u.2.2) s).dischargeOrder = []) ∧
      (∀ mst,
        lookupAssoc (us.foldl (fun s u => uploadAutomatedPredict s u.1 u.2.1 u.2.2) s).stats m =
          some mst →
        mst.discharges.map Prod.fst = mst.dischargeIds ∧
        mst.dischargeIds =
          (us.foldl (fun s u => uploadAutomatedPredict s u.1 u.2.1 u.2.2) s).dischargeOrder)) := by
  induction us with
  | nil =>
      intro s _ hinv
      exact hinv
  | cons u rest ih =>
      intro s hm hinv
      simp only [List.foldl_cons]
      exact ih (uploadAutomatedPredict s u.1 u.2.1 u.2.2)
        (fun v hv => hm v (by simp [hv]))
        (upload_inv m s u.1 u.2.1 u.2.2 (hm u (by simp)) hinv)

lemma length_flatMap_headerTriplet (l : List String) :
    (l.flatMap headerTriplet).length = 3 * l.length := by
  induction l with
  | nil => simp
  | cons a rest ih =>
      simp [List.flatMap_cons, headerTriplet, ih]
      omega

/-- C9 amended: each model's CSV header has exactly
`3 × |dischargeIds(model)|` columns, one `safeId` triplet per discharge in
the model's first-sight order, and the data-row count equals the maximum
justifications length; whenever the model responded in every upload, its
`dischargeIds` coincide with `dischargeOrder`, giving the claimed
`3 × |dischargeOrder|` columns in `dischargeOrder` order. -/
theorem csv_shape_per_model
    (us : List (String × (String → ℚ × ℕ) × List WindowResp)) (m : String)
    (hm : ∀ u ∈ us, ∃ r ∈ u.2.2, r.modelName = m) (mst : MStat)
    (hlook : lookupAssoc
      (us.foldl (fun s u => uploadAutomatedPredict s u.1 u.2.1 u.2.2) emptyAPSession).stats m =
      some mst) :
    mst.dischargeIds =
      (us.foldl (fun s u => uploadAutomatedPredict s u.1 u.2.1 u.2.2)
        emptyAPSession).dischargeOrder ∧
    csvHeader mst =
      (us.foldl (fun s u => uploadAutomatedPredict s u.1 u.2.1 u.2.2)
        emptyAPSession).dischargeOrder.flatMap headerTriplet ∧
    (csvHeader mst).length =
      3 * (us.foldl (fun s u => uploadAutomatedPredict s u.1 u.2.1 u.2.2)
        emptyAPSession).dischargeOrder.length ∧
    (csvRows mst).length = maxRowsOf mst := by
  have hinv0 : (lookupAssoc (emptyAPSession).stats m = none →
      (emptyAPSession).dischargeOrder = []) ∧
      (∀ mst, lookupAssoc (emptyAPSession).stats m = some mst →
        mst.discharges.map Prod.fst = mst.dischargeIds ∧
        mst.dischargeIds = (emptyAPSession).dischargeOrder) := by
    constructor
    · intro _
      rfl
    · intro mst h
      cases h
  obtain ⟨-, h2⟩ := uploads_inv m us emptyAPSession hm hinv0
  obtain ⟨hkeys, hids⟩ := h2 mst hlook
  refine ⟨hids, ?_, ?_, ?_⟩
  · unfold csvHeader
    rw [hids]
  · unfold csvHeader
    rw [hids]
    exact length_flatMap_headerTriplet _
  · simp [csvRows]

/-- Counterexample to C9: when model "B" responds only in the second of
two uploads, its CSV header has 3 columns while `3 × |dischargeOrder| = 6` —
the header is built from the model's own `dischargeIds`, not from the
session-wide `dischargeOrder`. -/
theorem csv_header_cex :
    (fun (s2 : APSession) =>
        s2.dischargeOrder = ["d1", "d2"] ∧
        (lookupAssoc s2.stats "B").map (fun m => m.dischargeIds) = some ["d2"] ∧
        (lookupAssoc s2.stats "B").map (fun m => (csvHeader m).length) = some 3 ∧
        ¬ (3 = 3 * s2.dischargeOrder.length))
      (uploadAutomatedPredict
        (uploadAutomatedPredict emptyAPSession "d1" (fun _ => (0, 1))
          [{ modelName := "A", windows := some [some 1] }])
        "d2" (fun _ => (0, 1))
        [{ modelName := "A", windows := some [some 1] },
         { modelName := "B", windows := some [some 1] }]) := by
  decide

/-- Witness for the amended C9: model "A" responds in both uploads; its
header is the two `safeId` triplets in `dischargeOrder` order. -/
theorem csv_shape_per_model_w :
    (fun (us : List (String × (String → ℚ × ℕ) × List WindowResp)) (mstA : MStat) =>
        (∀ u ∈ us, ∃ r ∈ u.2.2, r.modelName = "A") ∧
        lookupAssoc
          (us.foldl (fun s u => uploadAutomatedPredict s u.1 u.2.1 u.2.2)
            emptyAPSession).stats "A" = some mstA ∧
        (mstA.dischargeIds =
          (us.foldl (fun s u => uploadAutomatedPredict s u.1 u.2.1 u.2.2)
            emptyAPSession).dischargeOrder ∧
        csvHeader mstA =
          (us.foldl (fun s u => uploadAutomatedPredict s u.1 u.2.1 u.2.2)
            emptyAPSession).dischargeOrder.flatMap headerTriplet ∧
        (csvHeader mstA).length =
          3 * (us.foldl (fun s u => uploadAutomatedPredict s u.1 u.2.1 u.2.2)
            emptyAPSession).dischargeOrder.length ∧
        (csvRows mstA).length = maxRowsOf mstA))
      [("d1", fun _ => (0, 1), [{ modelName := "A", windows := some [some 1] }]),
       ("d2", fun _ => (0, 1), [{ modelName := "A", windows := some [some 1] },
                                { modelName := "B", windows := some [some 1] }])]
      { count := 1, dischargeIds := ["d1", "d2"],
        discharges :=
          [("d1", { justifications := [1], thresholds := [1], count_thresholds := [1] }),
           ("d2", { justifications := [1], thresholds := [1], count_thresholds := [1] })] } :=
  ⟨by decide, by decide,
    csv_shape_per_model
      [("d1", fun _ => (0, 1), [{ modelName := "A", windows := some [some 1] }]),
       ("d2", fun _ => (0, 1), [{ modelName := "A", windows := some [some 1] },
                                { modelName := "B", windows := some [some 1] }])]
      "A" (by decide)
      { count := 1, dischargeIds := ["d1", "d2"],
        discharges :=
          [("d1", { justifications := [1], thresholds := [1], count_thresholds := [1] }),
           ("d2", { justifications := [1], thresholds := [1], count_thresholds := [1] })] }
      (by decide)⟩
